import Mathlib

/-!
# Verification of the DOM-to-API reconciliation core of `udemy-show-release-date`

Shallow embedding of the lecture-date content script
(`src/entrypoints/lecture-date.content.ts`): title normalization, the
chapter filter, the forward-sync matcher `matchDomToApi` with bounded
lookahead (window 10), and the idempotent injector
`injectDateIntoElement` / `injectDates`.

Modelling conventions:

* `HTMLElement` handles are opaque; we model a handle as a `Nat` and the
  live DOM as a state function `Nat → Elem`, where `Elem` records the
  observable per-element facts the injector reads and writes: the
  `data-wxt-date-injected` marker, whether the row-specific append target
  (`.ud-block-list-item-content` descendant `div[class*="__row"]`)
  resolves, and how many date annotations have been appended.
* The external collaborators `formatDateString` and
  `createLectureDateElement` only produce the content of the appended
  fragment, which the core never inspects; the embedding records an
  appended annotation as a counter increment.
* `getDomItems()` reads the live page; the embedding passes the DOM
  snapshot (the ordered `(element, title)` list) to `injectDates` as an
  explicit argument.
* JavaScript string truthiness of the optional `created` field
  (`!apiItem.created`) is modelled by `createdPresent`.
-/

namespace UdemyShowReleaseDate

/-- `CurriculumItem` from `src/utils/udemy-api.ts`:
`{ _class: string; id: number; title: string; created?: string; sort_order: number }`. -/
structure CurriculumItem where
  _class : String
  id : Nat
  title : String
  created : Option String
  sort_order : Int
  deriving DecidableEq, Repr, Inhabited

/-- A DOM row as produced by `getDomItems()`: an opaque element handle
paired with the visible title text. -/
structure DomItem where
  element : Nat
  title : String
  deriving DecidableEq, Repr, Inhabited

/-- `MatchedItem` from the source: an element handle paired with the API
item the matcher aligned it with. -/
structure MatchedItem where
  element : Nat
  apiItem : CurriculumItem
  deriving DecidableEq, Repr, Inhabited

/-- Observable state of one DOM element, as read and written by
`injectDateIntoElement`: the injection marker
(`element.dataset.wxtDateInjected === 'true'`), whether the row append
target resolves inside the element, and the number of date annotations
appended so far. -/
structure Elem where
  wxtDateInjected : Bool
  hasRow : Bool
  annotations : Nat
  deriving DecidableEq, Repr, Inhabited

/-- Whitespace collapsing for `t.replace(/\s+/g, ' ')`: every maximal run
of whitespace becomes a single space.  `prevWs` records whether the
previous character was whitespace (i.e. we are inside a run). -/
def collapseWs : Bool → List Char → List Char
  | _, [] => []
  | prevWs, c :: cs =>
    if c.isWhitespace then
      if prevWs then collapseWs true cs
      else ' ' :: collapseWs true cs
    else c :: collapseWs false cs

/-- `t.trim()`: strip leading and trailing whitespace. -/
def trimChars (l : List Char) : List Char :=
  ((l.dropWhile Char.isWhitespace).reverse.dropWhile Char.isWhitespace).reverse

/-- `normalizeTitle(t) = t.toLowerCase().replace(/\s+/g, ' ').trim()`. -/
def normalizeTitle (t : String) : String :=
  String.mk (trimChars (collapseWs false (t.data.map Char.toLower)))

/-- `getContentItems`: strip chapters — they don't appear as injectable
DOM rows.  Source: `items.filter(item => item._class !== 'chapter')`. -/
def getContentItems (items : List CurriculumItem) : List CurriculumItem :=
  items.filter (fun item => item._class ≠ "chapter")

/-- The guard of one lookahead iteration at offset `d` from the cursor `i`:
`apiIndex + offset < apiItems.length && normalizeTitle(title) ===
normalizeTitle(apiItems[apiIndex + offset].title)`. -/
def laCond (apiItems : List CurriculumItem) (title : String) (i d : Nat) : Prop :=
  i + d < apiItems.length ∧
    normalizeTitle title = normalizeTitle ((apiItems.getD (i + d) default).title)

instance (apiItems : List CurriculumItem) (title : String) (i d : Nat) :
    Decidable (laCond apiItems title i d) := by
  unfold laCond; infer_instance

/-- One step of the lookahead `for (let offset = 1; offset <= 10; offset++)`
loop: `offset` is the current offset, `fuel` the number of remaining
iterations.  Returns `some foundIndex` for the first offset whose guard
`laCond` holds. -/
def lookaheadGo (apiItems : List CurriculumItem) (title : String) (apiIndex : Nat) :
    Nat → Nat → Option Nat
  | _, 0 => none
  | offset, fuel + 1 =>
    if laCond apiItems title apiIndex offset then some (apiIndex + offset)
    else lookaheadGo apiItems title apiIndex (offset + 1) fuel

/-- The bounded lookahead of `matchDomToApi`: scan offsets `1..10`. -/
def lookahead (apiItems : List CurriculumItem) (title : String) (apiIndex : Nat) : Option Nat :=
  lookaheadGo apiItems title apiIndex 1 10

/-- A matched pair together with the cursor position it was emitted at
(the index of `apiItem` in the API list). -/
structure MatchedIdx where
  dom : DomItem
  apiItem : CurriculumItem
  apiIdx : Nat
  deriving DecidableEq, Repr, Inhabited

/-- The loop body of `matchDomToApi`: iterate over the DOM rows carrying
the cursor `apiIndex`.  `if (apiIndex >= apiItems.length) break;` is the
first guard; an exact cursor match emits and advances; otherwise the
bounded lookahead either resynchronizes the cursor or the DOM row is
dropped with the cursor unchanged. -/
def matchAux (apiItems : List CurriculumItem) : List DomItem → Nat → List MatchedIdx
  | [], _ => []
  | domItem :: rest, apiIndex =>
    if apiItems.length ≤ apiIndex then []
    else if normalizeTitle domItem.title = normalizeTitle ((apiItems.getD apiIndex default).title) then
      ⟨domItem, apiItems.getD apiIndex default, apiIndex⟩ :: matchAux apiItems rest (apiIndex + 1)
    else
      match lookahead apiItems domItem.title apiIndex with
      | some foundIndex =>
        ⟨domItem, apiItems.getD foundIndex default, foundIndex⟩ ::
          matchAux apiItems rest (foundIndex + 1)
      | none => matchAux apiItems rest apiIndex

/-- `matchDomToApi(domItems, apiItems)`: the forward-sync matcher.  Each
emitted record `{ element: domItem.element, apiItem: apiItems[apiIndex] }`
is the projection of the cursor-annotated `matchAux` output. -/
def matchDomToApi (domItems : List DomItem) (apiItems : List CurriculumItem) :
    List MatchedItem :=
  (matchAux apiItems domItems 0).map fun m => ⟨m.dom.element, m.apiItem⟩

/-- JavaScript truthiness of the optional `created` string:
`!apiItem.created` is true exactly when the field is absent or empty. -/
def createdPresent : Option String → Bool
  | none => false
  | some s => !(s == "")

/-- `injectDateIntoElement(element, apiItem)`: skip if already injected or
no `created`; skip if the row append target does not resolve; otherwise
append the date annotation and set the marker. -/
def injectDateIntoElement (element : Elem) (apiItem : CurriculumItem) : Elem :=
  if element.wxtDateInjected || !createdPresent apiItem.created then element
  else if !element.hasRow then element
  else { element with annotations := element.annotations + 1, wxtDateInjected := true }

/-- Effect of one matched pair on the DOM state: mutate the element the
handle points at. -/
def applyPair (σ : Nat → Elem) (m : MatchedItem) : Nat → Elem :=
  Function.update σ m.element (injectDateIntoElement (σ m.element) m.apiItem)

/-- The injection loop `for (const { element, apiItem } of matched)`. -/
def runInjections (σ : Nat → Elem) (matched : List MatchedItem) : Nat → Elem :=
  matched.foldl applyPair σ

/-- `injectDates(allCurriculumItems)`: filter chapters, match the DOM
snapshot against the filtered list, and inject each matched pair.  The
DOM snapshot (`getDomItems()` in the source) is passed explicitly. -/
def injectDates (σ : Nat → Elem) (domItems : List DomItem)
    (allCurriculumItems : List CurriculumItem) : Nat → Elem :=
  runInjections σ (matchDomToApi domItems (getContentItems allCurriculumItems))

/-! ## Lookahead characterization -/

theorem lookaheadGo_eq_some (apiItems : List CurriculumItem) (title : String) (i : Nat) :
    ∀ fuel offset j, lookaheadGo apiItems title i offset fuel = some j →
      ∃ d, j = i + d ∧ offset ≤ d ∧ d < offset + fuel ∧ laCond apiItems title i d ∧
        ∀ e, offset ≤ e → e < d → ¬ laCond apiItems title i e := by
  intro fuel
  induction fuel with
  | zero => intro offset j h; simp [lookaheadGo] at h
  | succ n ih =>
    intro offset j h
    by_cases hc : laCond apiItems title i offset
    · rw [lookaheadGo, if_pos hc] at h
      exact ⟨offset, (Option.some.inj h).symm, le_refl _, by omega, hc,
        fun e he1 he2 => by omega⟩
    · rw [lookaheadGo, if_neg hc] at h
      obtain ⟨d, hd1, hd2, hd3, hd4, hd5⟩ := ih (offset + 1) j h
      refine ⟨d, hd1, by omega, by omega, hd4, fun e he1 he2 => ?_⟩
      rcases Nat.eq_or_lt_of_le he1 with heq | hlt
      · exact heq ▸ hc
      · exact hd5 e hlt he2

theorem lookaheadGo_eq_none (apiItems : List CurriculumItem) (title : String) (i : Nat) :
    ∀ fuel offset, (∀ d, offset ≤ d → d < offset + fuel → ¬ laCond apiItems title i d) →
      lookaheadGo apiItems title i offset fuel = none := by
  intro fuel
  induction fuel with
  | zero => intro offset _; rfl
  | succ n ih =>
    intro offset h
    rw [lookaheadGo, if_neg (h offset (le_refl _) (by omega))]
    exact ih (offset + 1) (fun d hd1 hd2 => h d (by omega) (by omega))

theorem lookaheadGo_eq_some_of (apiItems : List CurriculumItem) (title : String) (i : Nat) :
    ∀ fuel offset d, offset ≤ d → d < offset + fuel → laCond apiItems title i d →
      (∀ e, offset ≤ e → e < d → ¬ laCond apiItems title i e) →
      lookaheadGo apiItems title i offset fuel = some (i + d) := by
  intro fuel
  induction fuel with
  | zero => intro offset d h1 h2; omega
  | succ n ih =>
    intro offset d h1 h2 h3 h4
    rcases Nat.eq_or_lt_of_le h1 with heq | hlt
    · subst heq; rw [lookaheadGo, if_pos h3]
    · rw [lookaheadGo, if_neg (h4 offset (le_refl _) hlt)]
      exact ih (offset + 1) d hlt (by omega) h3 (fun e he1 he2 => h4 e (by omega) he2)

/-! ## Unfolding equations for `matchAux` -/

theorem matchAux_nil (apiItems : List CurriculumItem) (i : Nat) :
    matchAux apiItems [] i = [] := rfl

theorem matchAux_cons_break (apiItems : List CurriculumItem) (d : DomItem) (ds : List DomItem)
    (i : Nat) (h : apiItems.length ≤ i) :
    matchAux apiItems (d :: ds) i = [] := by
  rw [matchAux, if_pos h]

theorem matchAux_cons_hit (apiItems : List CurriculumItem) (d : DomItem) (ds : List DomItem)
    (i : Nat) (h : i < apiItems.length)
    (ht : normalizeTitle d.title = normalizeTitle ((apiItems.getD i default).title)) :
    matchAux apiItems (d :: ds) i =
      ⟨d, apiItems.getD i default, i⟩ :: matchAux apiItems ds (i + 1) := by
  rw [matchAux, if_neg (Nat.not_le.mpr h), if_pos ht]

theorem matchAux_cons_found (apiItems : List CurriculumItem) (d : DomItem) (ds : List DomItem)
    (i j : Nat) (h : i < apiItems.length)
    (ht : ¬ normalizeTitle d.title = normalizeTitle ((apiItems.getD i default).title))
    (hla : lookahead apiItems d.title i = some j) :
    matchAux apiItems (d :: ds) i =
      ⟨d, apiItems.getD j default, j⟩ :: matchAux apiItems ds (j + 1) := by
  rw [matchAux, if_neg (Nat.not_le.mpr h), if_neg ht, hla]

theorem matchAux_cons_miss (apiItems : List CurriculumItem) (d : DomItem) (ds : List DomItem)
    (i : Nat) (h : i < apiItems.length)
    (ht : ¬ normalizeTitle d.title = normalizeTitle ((apiItems.getD i default).title))
    (hla : lookahead apiItems d.title i = none) :
    matchAux apiItems (d :: ds) i = matchAux apiItems ds i := by
  rw [matchAux, if_neg (Nat.not_le.mpr h), if_neg ht, hla]

/-! ## Matcher invariants -/

theorem matchAux_mem (apiItems : List CurriculumItem) :
    ∀ (domItems : List DomItem) (i : Nat) (m : MatchedIdx),
      m ∈ matchAux apiItems domItems i →
      m.dom ∈ domItems ∧ i ≤ m.apiIdx ∧ m.apiIdx < apiItems.length ∧
        m.apiItem = apiItems.getD m.apiIdx default ∧
        normalizeTitle m.dom.title = normalizeTitle m.apiItem.title := by
  intro domItems
  induction domItems with
  | nil => intro i m h; simp [matchAux_nil] at h
  | cons d ds ih =>
    intro i m hm
    by_cases hbr : apiItems.length ≤ i
    · rw [matchAux_cons_break apiItems d ds i hbr] at hm
      simp at hm
    · have hi : i < apiItems.length := Nat.not_le.mp hbr
      by_cases ht : normalizeTitle d.title = normalizeTitle ((apiItems.getD i default).title)
      · rw [matchAux_cons_hit apiItems d ds i hi ht] at hm
        rcases List.mem_cons.mp hm with hm | hm
        · subst hm
          exact ⟨List.mem_cons_self _ _, le_refl _, hi, rfl, ht⟩
        · obtain ⟨h1, h2, h3, h4, h5⟩ := ih (i + 1) m hm
          exact ⟨List.mem_cons_of_mem _ h1, by omega, h3, h4, h5⟩
      · cases hla : lookahead apiItems d.title i with
        | some j =>
          rw [matchAux_cons_found apiItems d ds i j hi ht hla] at hm
          obtain ⟨e, he1, he2, he3, he4, he5⟩ :=
            lookaheadGo_eq_some apiItems d.title i 10 1 j hla
          rcases List.mem_cons.mp hm with hm | hm
          · subst hm
            exact ⟨List.mem_cons_self _ _, show i ≤ j by omega,
              show j < apiItems.length by subst he1; exact he4.1, rfl,
              by subst he1; exact he4.2⟩
          · obtain ⟨h1, h2, h3, h4, h5⟩ := ih (j + 1) m hm
            exact ⟨List.mem_cons_of_mem _ h1, by omega, h3, h4, h5⟩
        | none =>
          rw [matchAux_cons_miss apiItems d ds i hi ht hla] at hm
          obtain ⟨h1, h2, h3, h4, h5⟩ := ih i m hm
          exact ⟨List.mem_cons_of_mem _ h1, h2, h3, h4, h5⟩

theorem matchAux_apiIdx_pairwise (apiItems : List CurriculumItem) :
    ∀ (domItems : List DomItem) (i : Nat),
      ((matchAux apiItems domItems i).map (fun m => m.apiIdx)).Pairwise (· < ·) := by
  intro domItems
  induction domItems with
  | nil => intro i; simp [matchAux_nil]
  | cons d ds ih =>
    intro i
    by_cases hbr : apiItems.length ≤ i
    · rw [matchAux_cons_break apiItems d ds i hbr]; simp
    · have hi : i < apiItems.length := Nat.not_le.mp hbr
      by_cases ht : normalizeTitle d.title = normalizeTitle ((apiItems.getD i default).title)
      · rw [matchAux_cons_hit apiItems d ds i hi ht]
        rw [List.map_cons, List.pairwise_cons]
        refine ⟨fun x hx => ?_, ih (i + 1)⟩
        obtain ⟨m, hm, hmx⟩ := List.mem_map.mp hx
        have := (matchAux_mem apiItems ds (i + 1) m hm).2.1
        show i < x
        omega
      · cases hla : lookahead apiItems d.title i with
        | some j =>
          rw [matchAux_cons_found apiItems d ds i j hi ht hla]
          rw [List.map_cons, List.pairwise_cons]
          refine ⟨fun x hx => ?_, ih (j + 1)⟩
          obtain ⟨m, hm, hmx⟩ := List.mem_map.mp hx
          have := (matchAux_mem apiItems ds (j + 1) m hm).2.1
          show j < x
          omega
        | none =>
          rw [matchAux_cons_miss apiItems d ds i hi ht hla]
          exact ih i

theorem matchAux_dom_sublist (apiItems : List CurriculumItem) :
    ∀ (domItems : List DomItem) (i : Nat),
      ((matchAux apiItems domItems i).map (fun m => m.dom)).Sublist domItems := by
  intro domItems
  induction domItems with
  | nil => intro i; simp [matchAux_nil]
  | cons d ds ih =>
    intro i
    by_cases hbr : apiItems.length ≤ i
    · rw [matchAux_cons_break apiItems d ds i hbr]
      exact List.nil_sublist _
    · have hi : i < apiItems.length := Nat.not_le.mp hbr
      by_cases ht : normalizeTitle d.title = normalizeTitle ((apiItems.getD i default).title)
      · rw [matchAux_cons_hit apiItems d ds i hi ht, List.map_cons]
        exact List.Sublist.cons₂ d (ih (i + 1))
      · cases hla : lookahead apiItems d.title i with
        | some j =>
          rw [matchAux_cons_found apiItems d ds i j hi ht hla, List.map_cons]
          exact List.Sublist.cons₂ d (ih (j + 1))
        | none =>
          rw [matchAux_cons_miss apiItems d ds i hi ht hla]
          exact List.Sublist.cons d (ih i)

theorem matchAux_length_le_api (apiItems : List CurriculumItem) :
    ∀ (domItems : List DomItem) (i : Nat),
      (matchAux apiItems domItems i).length ≤ apiItems.length - i := by
  intro domItems
  induction domItems with
  | nil => intro i; simp [matchAux_nil]
  | cons d ds ih =>
    intro i
    by_cases hbr : apiItems.length ≤ i
    · rw [matchAux_cons_break apiItems d ds i hbr]; simp
    · have hi : i < apiItems.length := Nat.not_le.mp hbr
      by_cases ht : normalizeTitle d.title = normalizeTitle ((apiItems.getD i default).title)
      · rw [matchAux_cons_hit apiItems d ds i hi ht]
        have := ih (i + 1)
        simp only [List.length_cons]
        omega
      · cases hla : lookahead apiItems d.title i with
        | some j =>
          rw [matchAux_cons_found apiItems d ds i j hi ht hla]
          obtain ⟨e, he1, he2, he3, he4, he5⟩ :=
            lookaheadGo_eq_some apiItems d.title i 10 1 j hla
          have hj : i < j ∧ j < apiItems.length := by
            constructor
            · omega
            · subst he1; exact he4.1
          have := ih (j + 1)
          simp only [List.length_cons]
          omega
        | none =>
          rw [matchAux_cons_miss apiItems d ds i hi ht hla]
          exact ih i

theorem matchAux_length_le_dom (apiItems : List CurriculumItem)
    (domItems : List DomItem) (i : Nat) :
    (matchAux apiItems domItems i).length ≤ domItems.length := by
  have h := (matchAux_dom_sublist apiItems domItems i).length_le
  simpa using h

/-! ## Exact-order alignment -/

theorem getD_map_range {α : Type} [Inhabited α] (n : Nat) (f : Nat → α) (k : Nat) (h : k < n) :
    (((List.range n).map f).getD k default) = f k := by
  rw [List.getD_eq_getElem _ _ (by simpa using h)]
  simp

theorem matchAux_exact (apiItems : List CurriculumItem) :
    ∀ (domItems : List DomItem) (i : Nat),
      i + domItems.length ≤ apiItems.length →
      (∀ k, k < domItems.length →
        normalizeTitle ((domItems.getD k default).title) =
          normalizeTitle ((apiItems.getD (i + k) default).title)) →
      matchAux apiItems domItems i =
        (List.range domItems.length).map
          (fun k => ⟨domItems.getD k default, apiItems.getD (i + k) default, i + k⟩) := by
  intro domItems
  induction domItems with
  | nil => intro i _ _; simp [matchAux_nil]
  | cons d ds ih =>
    intro i hlen htitles
    have hi : i < apiItems.length := by
      simp only [List.length_cons] at hlen; omega
    have ht0 : normalizeTitle d.title = normalizeTitle ((apiItems.getD i default).title) := by
      have := htitles 0 (by simp)
      simpa using this
    rw [matchAux_cons_hit apiItems d ds i hi ht0]
    have hrec := ih (i + 1)
      (by simp only [List.length_cons] at hlen; omega)
      (by
        intro k hk
        have := htitles (k + 1) (by simp only [List.length_cons]; omega)
        simpa [Nat.add_comm, Nat.add_assoc, Nat.add_left_comm] using this)
    rw [hrec, List.length_cons, List.range_succ_eq_map, List.map_cons, List.map_map]
    refine congrArg₂ List.cons ?_ ?_
    · simp
    · refine List.map_congr_left fun k hk => ?_
      simp only [Function.comp_apply, Nat.succ_eq_add_one, List.getD_cons_succ]
      have harith : i + 1 + k = i + (k + 1) := by omega
      rw [harith]

/-! ## Injector lemmas -/

theorem injectDateIntoElement_marked (e : Elem) (it : CurriculumItem)
    (h : e.wxtDateInjected = true) : injectDateIntoElement e it = e := by
  simp [injectDateIntoElement, h]

theorem injectDateIntoElement_no_created (e : Elem) (it : CurriculumItem)
    (h : createdPresent it.created = false) : injectDateIntoElement e it = e := by
  simp [injectDateIntoElement, h]

theorem injectDateIntoElement_no_anchor (e : Elem) (it : CurriculumItem)
    (h : e.hasRow = false) : injectDateIntoElement e it = e := by
  by_cases h1 : (e.wxtDateInjected || !createdPresent it.created) = true <;>
    simp [injectDateIntoElement, h1, h]

theorem injectDateIntoElement_act (e : Elem) (it : CurriculumItem)
    (h1 : e.wxtDateInjected = false) (h2 : createdPresent it.created = true)
    (h3 : e.hasRow = true) :
    injectDateIntoElement e it =
      { e with annotations := e.annotations + 1, wxtDateInjected := true } := by
  simp [injectDateIntoElement, h1, h2, h3]

theorem injectDateIntoElement_idem (e : Elem) (it : CurriculumItem) :
    injectDateIntoElement (injectDateIntoElement e it) it = injectDateIntoElement e it := by
  by_cases h1 : e.wxtDateInjected = true
  · rw [injectDateIntoElement_marked e it h1, injectDateIntoElement_marked e it h1]
  · have h1' : e.wxtDateInjected = false := by simpa using h1
    by_cases h2 : createdPresent it.created = true
    · by_cases h3 : e.hasRow = true
      · rw [injectDateIntoElement_act e it h1' h2 h3]
        exact injectDateIntoElement_marked _ it rfl
      · have h3' : e.hasRow = false := by simpa using h3
        rw [injectDateIntoElement_no_anchor e it h3', injectDateIntoElement_no_anchor e it h3']
    · have h2' : createdPresent it.created = false := by simpa using h2
      rw [injectDateIntoElement_no_created e it h2', injectDateIntoElement_no_created e it h2']

theorem injectDateIntoElement_marker_mono (e : Elem) (it : CurriculumItem)
    (h : e.wxtDateInjected = true) : (injectDateIntoElement e it).wxtDateInjected = true := by
  rw [injectDateIntoElement_marked e it h]; exact h

theorem applyPair_self (σ : Nat → Elem) (m : MatchedItem) :
    applyPair σ m m.element = injectDateIntoElement (σ m.element) m.apiItem :=
  Function.update_same _ _ _

theorem applyPair_ne (σ : Nat → Elem) (m : MatchedItem) (h : Nat) (hne : h ≠ m.element) :
    applyPair σ m h = σ h :=
  Function.update_noteq hne _ _

theorem runInjections_cons (σ : Nat → Elem) (m : MatchedItem) (ms : List MatchedItem) :
    runInjections σ (m :: ms) = runInjections (applyPair σ m) ms := rfl

theorem runInjections_notmem (ms : List MatchedItem) :
    ∀ (σ : Nat → Elem) (h : Nat), h ∉ ms.map (fun m => m.element) →
      runInjections σ ms h = σ h := by
  induction ms with
  | nil => intro σ h _; rfl
  | cons m ms ih =>
    intro σ h hh
    simp only [List.map_cons, List.mem_cons, not_or] at hh
    rw [runInjections_cons, ih _ _ hh.2, applyPair_ne σ m h hh.1]

theorem runInjections_idem (ms : List MatchedItem) :
    ∀ (σ : Nat → Elem), (ms.map (fun m => m.element)).Nodup →
      runInjections (runInjections σ ms) ms = runInjections σ ms := by
  induction ms with
  | nil => intro σ _; rfl
  | cons m ms ih =>
    intro σ hnd
    rw [List.map_cons, List.nodup_cons] at hnd
    obtain ⟨hnotmem, hnd'⟩ := hnd
    rw [runInjections_cons, runInjections_cons]
    have hT : runInjections (applyPair σ m) ms m.element = applyPair σ m m.element :=
      runInjections_notmem ms (applyPair σ m) m.element hnotmem
    have hval : injectDateIntoElement
        (runInjections (applyPair σ m) ms m.element) m.apiItem =
        runInjections (applyPair σ m) ms m.element := by
      rw [hT, applyPair_self, injectDateIntoElement_idem]
    have hfix : applyPair (runInjections (applyPair σ m) ms) m =
        runInjections (applyPair σ m) ms := by
      show Function.update _ m.element _ = _
      rw [hval]
      exact Function.update_eq_self _ _
    rw [hfix]
    exact ih (applyPair σ m) hnd'

theorem runInjections_ann_eq_one (ms : List MatchedItem) :
    ∀ (σ : Nat → Elem) (m : MatchedItem), (ms.map (fun x => x.element)).Nodup → m ∈ ms →
      (σ m.element).wxtDateInjected = false → createdPresent m.apiItem.created = true →
      (σ m.element).hasRow = true → (σ m.element).annotations = 0 →
      (runInjections σ ms m.element).annotations = 1 := by
  induction ms with
  | nil => intro σ m _ hmem; simp at hmem
  | cons m' ms ih =>
    intro σ m hnd hmem h1 h2 h3 h4
    rw [List.map_cons, List.nodup_cons] at hnd
    obtain ⟨hnotmem, hnd'⟩ := hnd
    rcases List.mem_cons.mp hmem with hmem | hmem
    · subst hmem
      rw [runInjections_cons,
        runInjections_notmem ms (applyPair σ m) m.element hnotmem,
        applyPair_self, injectDateIntoElement_act _ _ h1 h2 h3, h4]
    · have hne : m.element ≠ m'.element := by
        intro hcontra
        exact hnotmem (hcontra ▸ List.mem_map_of_mem (fun x => x.element) hmem)
      rw [runInjections_cons]
      have hkeep : applyPair σ m' m.element = σ m.element := applyPair_ne σ m' m.element hne
      exact ih (applyPair σ m') m hnd' hmem (hkeep ▸ h1) h2 (hkeep ▸ h3) (hkeep ▸ h4)

/-! ## Claim theorems -/

/-- C3: the per-row injection is a no-op exactly when the element already
carries the injection marker or the matched API item's `created` timestamp
is absent/empty; for every pair whose element is unmarked and whose
`created` is present (the code never inspects the item class, so in
particular for any non-chapter class), the annotation is attached and the
marker is set, provided the anchor resolves. -/
theorem injectDateIntoElement_skip_iff (e : Elem) (it : CurriculumItem)
    (hanchor : e.hasRow = true) :
    (injectDateIntoElement e it = e ↔
      (e.wxtDateInjected = true ∨ createdPresent it.created = false)) ∧
    (e.wxtDateInjected = false → createdPresent it.created = true →
      injectDateIntoElement e it =
        { e with annotations := e.annotations + 1, wxtDateInjected := true }) := by
  refine ⟨⟨fun heq => ?_, fun h => ?_⟩, fun h1 h2 => injectDateIntoElement_act e it h1 h2 hanchor⟩
  · by_contra hcon
    push_neg at hcon
    obtain ⟨hm, hc⟩ := hcon
    have hm' : e.wxtDateInjected = false := by simpa using hm
    have hc' : createdPresent it.created = true := by simpa using hc
    rw [injectDateIntoElement_act e it hm' hc' hanchor] at heq
    have hproj := congrArg Elem.wxtDateInjected heq
    simp [hm'] at hproj
  · rcases h with h | h
    · exact injectDateIntoElement_marked e it h
    · exact injectDateIntoElement_no_created e it h

/-- Witness for C3 at a concrete unmarked element with a present timestamp
and a resolvable anchor. -/
theorem injectDateIntoElement_skip_iff_witness :
    (Elem.mk false true 0).hasRow = true ∧
    ((injectDateIntoElement (Elem.mk false true 0)
        (CurriculumItem.mk "lecture" 1 "Introduction" (some "2023-01-01T00:00:00Z") 10) =
        Elem.mk false true 0 ↔
      ((Elem.mk false true 0).wxtDateInjected = true ∨
        createdPresent (CurriculumItem.mk "lecture" 1 "Introduction"
          (some "2023-01-01T00:00:00Z") 10).created = false)) ∧
    ((Elem.mk false true 0).wxtDateInjected = false →
      createdPresent (CurriculumItem.mk "lecture" 1 "Introduction"
        (some "2023-01-01T00:00:00Z") 10).created = true →
      injectDateIntoElement (Elem.mk false true 0)
          (CurriculumItem.mk "lecture" 1 "Introduction" (some "2023-01-01T00:00:00Z") 10) =
        { Elem.mk false true 0 with
            annotations := (Elem.mk false true 0).annotations + 1,
            wxtDateInjected := true })) :=
  ⟨by decide,
    injectDateIntoElement_skip_iff (Elem.mk false true 0)
      (CurriculumItem.mk "lecture" 1 "Introduction" (some "2023-01-01T00:00:00Z") 10)
      (by decide)⟩

/-- C8: for a matched pair whose element is unmarked and whose `created`
timestamp is present, if the row-specific append target cannot be resolved
the injection for that row is a no-op: the element's state is unchanged
(nothing appended, marker not set). -/
theorem injectDateIntoElement_anchor_failure (e : Elem) (it : CurriculumItem)
    (_h1 : e.wxtDateInjected = false) (_h2 : createdPresent it.created = true)
    (h3 : e.hasRow = false) :
    injectDateIntoElement e it = e :=
  injectDateIntoElement_no_anchor e it h3

/-- Witness for C8 at a concrete unmarked element with a present timestamp
whose anchor does not resolve. -/
theorem injectDateIntoElement_anchor_failure_witness :
    ((Elem.mk false false 0).wxtDateInjected = false ∧
      createdPresent (CurriculumItem.mk "quiz" 7 "Quiz 1" (some "2024-05-01") 3).created = true ∧
      (Elem.mk false false 0).hasRow = false) ∧
    injectDateIntoElement (Elem.mk false false 0)
        (CurriculumItem.mk "quiz" 7 "Quiz 1" (some "2024-05-01") 3) =
      Elem.mk false false 0 :=
  ⟨by decide,
    injectDateIntoElement_anchor_failure (Elem.mk false false 0)
      (CurriculumItem.mk "quiz" 7 "Quiz 1" (some "2024-05-01") 3)
      (by decide) (by decide) (by decide)⟩

/-- C7: `getContentItems` returns exactly the subsequence of items whose
class is not `"chapter"`, in the same relative order (a sublist whose
occurrence counts are those of the input for non-chapter items and zero
for chapter items), and it is total, in particular on the empty list. -/
theorem getContentItems_correct (items : List CurriculumItem) :
    (getContentItems items).Sublist items ∧
    (∀ it, it ∈ getContentItems items ↔ (it ∈ items ∧ it._class ≠ "chapter")) ∧
    (∀ it, (getContentItems items).count it =
      if it._class = "chapter" then 0 else items.count it) ∧
    getContentItems ([] : List CurriculumItem) = [] := by
  refine ⟨List.filter_sublist items, fun it => ?_, fun it => ?_, rfl⟩
  · simp [getContentItems]
  · by_cases hcl : it._class = "chapter"
    · rw [if_pos hcl]
      rw [List.count_eq_zero]
      intro hmem
      rw [getContentItems, List.mem_filter] at hmem
      exact absurd hcl (by simpa using hmem.2)
    · rw [if_neg hcl, getContentItems]
      exact List.count_filter (by simpa using hcl)

/-- C9: the API cursor positions of the pairs emitted by the matcher are
strictly increasing in emission order, hence pairwise distinct (no API
slot is paired twice); the emitted elements appear in the same relative
order as the DOM row list; and the number of pairs is at most the minimum
of the two input lengths. -/
theorem matchDomToApi_cursor_monotone (domItems : List DomItem)
    (apiItems : List CurriculumItem) :
    ((matchAux apiItems domItems 0).map (fun m => m.apiIdx)).Pairwise (· < ·) ∧
    ((matchAux apiItems domItems 0).map (fun m => m.apiIdx)).Nodup ∧
    ((matchDomToApi domItems apiItems).map (fun m => m.element)).Sublist
      (domItems.map (fun d => d.element)) ∧
    (matchDomToApi domItems apiItems).length ≤ min domItems.length apiItems.length := by
  refine ⟨matchAux_apiIdx_pairwise apiItems domItems 0,
    (matchAux_apiIdx_pairwise apiItems domItems 0).imp (fun h => Nat.ne_of_lt h), ?_, ?_⟩
  · have hsub := (matchAux_dom_sublist apiItems domItems 0).map (fun d => d.element)
    rw [List.map_map] at hsub
    rw [matchDomToApi, List.map_map]
    exact hsub
  · refine Nat.le_min.mpr ⟨?_, ?_⟩
    · have := matchAux_length_le_dom apiItems domItems 0
      simpa [matchDomToApi] using this
    · have := matchAux_length_le_api apiItems domItems 0
      simp only [Nat.sub_zero] at this
      simpa [matchDomToApi] using this

/-- C10: every pair emitted by `matchDomToApi` is built from some DOM row
whose normalized title is character-equal to the normalized title of the
paired API item, and the paired item is one of the input API items. -/
theorem matchDomToApi_sound (domItems : List DomItem) (apiItems : List CurriculumItem)
    (m : MatchedItem) (hm : m ∈ matchDomToApi domItems apiItems) :
    ∃ d, d ∈ domItems ∧ m.element = d.element ∧
      normalizeTitle d.title = normalizeTitle m.apiItem.title ∧ m.apiItem ∈ apiItems := by
  rw [matchDomToApi] at hm
  obtain ⟨mi, hmi, hpf⟩ := List.mem_map.mp hm
  obtain ⟨h1, _h2, h3, h4, h5⟩ := matchAux_mem apiItems domItems 0 mi hmi
  subst hpf
  refine ⟨mi.dom, h1, rfl, h5, ?_⟩
  show mi.apiItem ∈ apiItems
  rw [h4, List.getD_eq_getElem apiItems default h3]
  exact List.getElem_mem h3

/-- Witness for C10 at a concrete one-row match. -/
theorem matchDomToApi_sound_witness :
    (MatchedItem.mk 0 (CurriculumItem.mk "lecture" 1 "Intro" none 5) ∈
      matchDomToApi [DomItem.mk 0 " INTRO "] [CurriculumItem.mk "lecture" 1 "Intro" none 5]) ∧
    (∃ d, d ∈ [DomItem.mk 0 " INTRO "] ∧
      (MatchedItem.mk 0 (CurriculumItem.mk "lecture" 1 "Intro" none 5)).element = d.element ∧
      normalizeTitle d.title =
        normalizeTitle (MatchedItem.mk 0 (CurriculumItem.mk "lecture" 1 "Intro" none 5)).apiItem.title ∧
      (MatchedItem.mk 0 (CurriculumItem.mk "lecture" 1 "Intro" none 5)).apiItem ∈
        [CurriculumItem.mk "lecture" 1 "Intro" none 5]) :=
  ⟨by decide,
    matchDomToApi_sound [DomItem.mk 0 " INTRO "] [CurriculumItem.mk "lecture" 1 "Intro" none 5]
      (MatchedItem.mk 0 (CurriculumItem.mk "lecture" 1 "Intro" none 5)) (by decide)⟩

/-- C1: for equal-length inputs whose normalized titles agree pairwise in
order, `matchDomToApi` returns exactly `domItems.length` pairs, the `i`-th
pairing `domItems[i]`'s element with `apiItems[i]`. -/
theorem matchDomToApi_exact_order_identity
    (domItems : List DomItem) (apiItems : List CurriculumItem)
    (hlen : domItems.length = apiItems.length)
    (ht : ∀ i, i < domItems.length →
      normalizeTitle ((domItems.getD i default).title) =
        normalizeTitle ((apiItems.getD i default).title)) :
    (matchDomToApi domItems apiItems).length = domItems.length ∧
    ∀ i, i < domItems.length →
      ((matchDomToApi domItems apiItems).getD i default).element =
        (domItems.getD i default).element ∧
      ((matchDomToApi domItems apiItems).getD i default).apiItem = apiItems.getD i default := by
  have hexact := matchAux_exact apiItems domItems 0 (by omega)
    (by intro k hk; simpa using ht k hk)
  constructor
  · rw [matchDomToApi, hexact]
    simp
  · intro i hi
    rw [matchDomToApi, hexact, List.map_map]
    rw [getD_map_range domItems.length _ i hi]
    simp

/-- Witness for C1: two rows whose titles differ from the API titles only
in case and whitespace. -/
theorem matchDomToApi_exact_order_identity_witness :
    (([DomItem.mk 4 "Introduction", DomItem.mk 9 "model  measurements"]).length =
      ([CurriculumItem.mk "lecture" 1 "INTRODUCTION" (some "2023-01-01") 10,
        CurriculumItem.mk "quiz" 2 " Model Measurements" none 5]).length ∧
     ∀ i, i < ([DomItem.mk 4 "Introduction", DomItem.mk 9 "model  measurements"]).length →
      normalizeTitle ((([DomItem.mk 4 "Introduction",
          DomItem.mk 9 "model  measurements"]).getD i default).title) =
        normalizeTitle ((([CurriculumItem.mk "lecture" 1 "INTRODUCTION" (some "2023-01-01") 10,
          CurriculumItem.mk "quiz" 2 " Model Measurements" none 5]).getD i default).title)) ∧
    ((matchDomToApi [DomItem.mk 4 "Introduction", DomItem.mk 9 "model  measurements"]
        [CurriculumItem.mk "lecture" 1 "INTRODUCTION" (some "2023-01-01") 10,
         CurriculumItem.mk "quiz" 2 " Model Measurements" none 5]).length =
      ([DomItem.mk 4 "Introduction", DomItem.mk 9 "model  measurements"]).length ∧
     ∀ i, i < ([DomItem.mk 4 "Introduction", DomItem.mk 9 "model  measurements"]).length →
      ((matchDomToApi [DomItem.mk 4 "Introduction", DomItem.mk 9 "model  measurements"]
          [CurriculumItem.mk "lecture" 1 "INTRODUCTION" (some "2023-01-01") 10,
           CurriculumItem.mk "quiz" 2 " Model Measurements" none 5]).getD i default).element =
        (([DomItem.mk 4 "Introduction", DomItem.mk 9 "model  measurements"]).getD i default).element ∧
      ((matchDomToApi [DomItem.mk 4 "Introduction", DomItem.mk 9 "model  measurements"]
          [CurriculumItem.mk "lecture" 1 "INTRODUCTION" (some "2023-01-01") 10,
           CurriculumItem.mk "quiz" 2 " Model Measurements" none 5]).getD i default).apiItem =
        ([CurriculumItem.mk "lecture" 1 "INTRODUCTION" (some "2023-01-01") 10,
          CurriculumItem.mk "quiz" 2 " Model Measurements" none 5]).getD i default) :=
  ⟨⟨by decide, by decide⟩,
    matchDomToApi_exact_order_identity
      [DomItem.mk 4 "Introduction", DomItem.mk 9 "model  measurements"]
      [CurriculumItem.mk "lecture" 1 "INTRODUCTION" (some "2023-01-01") 10,
       CurriculumItem.mk "quiz" 2 " Model Measurements" none 5]
      (by decide) (by decide)⟩

/-- C2: for a DOM row mismatching at the cursor, the matcher scans offsets
1 through 10 inclusive in increasing order and takes the first match: a
match whose least offset is any `o ≤ 10` (in particular exactly 10) is
found and paired with the cursor moved past it, while if no offset in
1..10 matches (even if offset 11 would), the row is left unmatched and the
cursor stays. -/
theorem matchDomToApi_lookahead_window_boundary
    (apiItems : List CurriculumItem) (d : DomItem) (ds : List DomItem) (i : Nat)
    (hi : i < apiItems.length)
    (hne : normalizeTitle d.title ≠ normalizeTitle ((apiItems.getD i default).title)) :
    ((∀ o, 1 ≤ o → o ≤ 10 → i + o < apiItems.length →
        normalizeTitle d.title ≠ normalizeTitle ((apiItems.getD (i + o) default).title)) →
      matchAux apiItems (d :: ds) i = matchAux apiItems ds i) ∧
    (∀ o, 1 ≤ o → o ≤ 10 → i + o < apiItems.length →
      normalizeTitle d.title = normalizeTitle ((apiItems.getD (i + o) default).title) →
      (∀ o', 1 ≤ o' → o' < o →
        normalizeTitle d.title ≠ normalizeTitle ((apiItems.getD (i + o') default).title)) →
      matchAux apiItems (d :: ds) i =
        ⟨d, apiItems.getD (i + o) default, i + o⟩ :: matchAux apiItems ds (i + o + 1)) := by
  constructor
  · intro hno
    have hla : lookahead apiItems d.title i = none := by
      refine lookaheadGo_eq_none apiItems d.title i 10 1 (fun o ho1 ho2 hc => ?_)
      exact hno o ho1 (by omega) hc.1 hc.2
    exact matchAux_cons_miss apiItems d ds i hi hne hla
  · intro o ho1 ho2 hbound heq hmin
    have hla : lookahead apiItems d.title i = some (i + o) := by
      refine lookaheadGo_eq_some_of apiItems d.title i 10 1 o ho1 (by omega)
        ⟨hbound, heq⟩ (fun e he1 he2 hc => hmin e he1 he2 hc.2)
    exact matchAux_cons_found apiItems d ds i (i + o) hi hne hla

/-- Witness for C2 at a concrete mismatching row. -/
theorem matchDomToApi_lookahead_window_boundary_witness :
    ((0 : Nat) < ([CurriculumItem.mk "lecture" 1 "Other" none 0]).length ∧
      normalizeTitle (DomItem.mk 3 "Target").title ≠
        normalizeTitle ((([CurriculumItem.mk "lecture" 1 "Other" none 0]).getD 0 default).title)) ∧
    (((∀ o, 1 ≤ o → o ≤ 10 → 0 + o < ([CurriculumItem.mk "lecture" 1 "Other" none 0]).length →
        normalizeTitle (DomItem.mk 3 "Target").title ≠
          normalizeTitle ((([CurriculumItem.mk "lecture" 1 "Other" none 0]).getD (0 + o) default).title)) →
      matchAux [CurriculumItem.mk "lecture" 1 "Other" none 0] [DomItem.mk 3 "Target"] 0 =
        matchAux [CurriculumItem.mk "lecture" 1 "Other" none 0] [] 0) ∧
    (∀ o, 1 ≤ o → o ≤ 10 → 0 + o < ([CurriculumItem.mk "lecture" 1 "Other" none 0]).length →
      normalizeTitle (DomItem.mk 3 "Target").title =
        normalizeTitle ((([CurriculumItem.mk "lecture" 1 "Other" none 0]).getD (0 + o) default).title) →
      (∀ o', 1 ≤ o' → o' < o →
        normalizeTitle (DomItem.mk 3 "Target").title ≠
          normalizeTitle ((([CurriculumItem.mk "lecture" 1 "Other" none 0]).getD (0 + o') default).title)) →
      matchAux [CurriculumItem.mk "lecture" 1 "Other" none 0] [DomItem.mk 3 "Target"] 0 =
        ⟨DomItem.mk 3 "Target", ([CurriculumItem.mk "lecture" 1 "Other" none 0]).getD (0 + o) default,
            0 + o⟩ ::
          matchAux [CurriculumItem.mk "lecture" 1 "Other" none 0] [] (0 + o + 1))) :=
  ⟨⟨by decide, by decide⟩,
    matchDomToApi_lookahead_window_boundary
      [CurriculumItem.mk "lecture" 1 "Other" none 0] (DomItem.mk 3 "Target") [] 0
      (by decide) (by decide)⟩

/-- C5: for DOM rows `[A, B]` and API items `[A, Hidden, B]` where
`Hidden` matches neither DOM row, the matcher yields exactly
`[(A, A), (B, B)]`, the cursor ends past `Hidden` (the second pair is
emitted at cursor 2), and `Hidden` appears in no pair. -/
theorem matchDomToApi_lookahead_recovery
    (e₁ e₂ : Nat) (ta tb : String) (A H B : CurriculumItem)
    (hA : normalizeTitle ta = normalizeTitle A.title)
    (hB : normalizeTitle tb = normalizeTitle B.title)
    (hHa : normalizeTitle ta ≠ normalizeTitle H.title)
    (hHb : normalizeTitle tb ≠ normalizeTitle H.title) :
    matchAux [A, H, B] [DomItem.mk e₁ ta, DomItem.mk e₂ tb] 0 =
      [⟨DomItem.mk e₁ ta, A, 0⟩, ⟨DomItem.mk e₂ tb, B, 2⟩] ∧
    matchDomToApi [DomItem.mk e₁ ta, DomItem.mk e₂ tb] [A, H, B] =
      [MatchedItem.mk e₁ A, MatchedItem.mk e₂ B] ∧
    ∀ m ∈ matchDomToApi [DomItem.mk e₁ ta, DomItem.mk e₂ tb] [A, H, B], m.apiItem ≠ H := by
  have h0 : (0 : Nat) < ([A, H, B]).length := by simp
  have hhit : normalizeTitle (DomItem.mk e₁ ta).title =
      normalizeTitle ((([A, H, B]).getD 0 default).title) := hA
  have h1 : (1 : Nat) < ([A, H, B]).length := by simp
  have hne1 : ¬ normalizeTitle (DomItem.mk e₂ tb).title =
      normalizeTitle ((([A, H, B]).getD 1 default).title) := hHb
  have hla : lookahead [A, H, B] (DomItem.mk e₂ tb).title 1 = some 2 := by
    have hgo := lookaheadGo_eq_some_of [A, H, B] (DomItem.mk e₂ tb).title 1 10 1 1
      (le_refl 1) (by omega) ⟨by simp, hB⟩ (fun e he1 he2 => by omega)
    simpa [lookahead] using hgo
  have hmain : matchAux [A, H, B] [DomItem.mk e₁ ta, DomItem.mk e₂ tb] 0 =
      [⟨DomItem.mk e₁ ta, A, 0⟩, ⟨DomItem.mk e₂ tb, B, 2⟩] := by
    rw [matchAux_cons_hit [A, H, B] (DomItem.mk e₁ ta) [DomItem.mk e₂ tb] 0 h0 hhit,
      matchAux_cons_found [A, H, B] (DomItem.mk e₂ tb) [] 1 2 h1 hne1 hla,
      matchAux_nil]
    rfl
  have hAH : A ≠ H := fun hEq => hHa (hA.trans (by rw [hEq]))
  have hBH : B ≠ H := fun hEq => hHb (hB.trans (by rw [hEq]))
  have hmatched : matchDomToApi [DomItem.mk e₁ ta, DomItem.mk e₂ tb] [A, H, B] =
      [MatchedItem.mk e₁ A, MatchedItem.mk e₂ B] := by
    rw [matchDomToApi, hmain]
    rfl
  refine ⟨hmain, hmatched, fun m hm => ?_⟩
  rw [hmatched] at hm
  rcases List.mem_cons.mp hm with hm | hm
  · subst hm; exact hAH
  · rcases List.mem_cons.mp hm with hm | hm
    · subst hm; exact hBH
    · simp at hm

/-- Witness for C5 at concrete titles. -/
theorem matchDomToApi_lookahead_recovery_witness :
    (normalizeTitle "Alpha" =
        normalizeTitle (CurriculumItem.mk "lecture" 1 "alpha" (some "2023") 9).title ∧
      normalizeTitle "Beta" =
        normalizeTitle (CurriculumItem.mk "lecture" 3 "beta" (some "2024") 7).title ∧
      normalizeTitle "Alpha" ≠
        normalizeTitle (CurriculumItem.mk "lecture" 2 "ghost" none 8).title ∧
      normalizeTitle "Beta" ≠
        normalizeTitle (CurriculumItem.mk "lecture" 2 "ghost" none 8).title) ∧
    (matchAux [CurriculumItem.mk "lecture" 1 "alpha" (some "2023") 9,
        CurriculumItem.mk "lecture" 2 "ghost" none 8,
        CurriculumItem.mk "lecture" 3 "beta" (some "2024") 7]
        [DomItem.mk 0 "Alpha", DomItem.mk 1 "Beta"] 0 =
      [⟨DomItem.mk 0 "Alpha", CurriculumItem.mk "lecture" 1 "alpha" (some "2023") 9, 0⟩,
       ⟨DomItem.mk 1 "Beta", CurriculumItem.mk "lecture" 3 "beta" (some "2024") 7, 2⟩] ∧
    matchDomToApi [DomItem.mk 0 "Alpha", DomItem.mk 1 "Beta"]
        [CurriculumItem.mk "lecture" 1 "alpha" (some "2023") 9,
         CurriculumItem.mk "lecture" 2 "ghost" none 8,
         CurriculumItem.mk "lecture" 3 "beta" (some "2024") 7] =
      [MatchedItem.mk 0 (CurriculumItem.mk "lecture" 1 "alpha" (some "2023") 9),
       MatchedItem.mk 1 (CurriculumItem.mk "lecture" 3 "beta" (some "2024") 7)] ∧
    ∀ m ∈ matchDomToApi [DomItem.mk 0 "Alpha", DomItem.mk 1 "Beta"]
        [CurriculumItem.mk "lecture" 1 "alpha" (some "2023") 9,
         CurriculumItem.mk "lecture" 2 "ghost" none 8,
         CurriculumItem.mk "lecture" 3 "beta" (some "2024") 7],
      m.apiItem ≠ CurriculumItem.mk "lecture" 2 "ghost" none 8) :=
  ⟨⟨by decide, by decide, by decide, by decide⟩,
    matchDomToApi_lookahead_recovery 0 1 "Alpha" "Beta"
      (CurriculumItem.mk "lecture" 1 "alpha" (some "2023") 9)
      (CurriculumItem.mk "lecture" 2 "ghost" none 8)
      (CurriculumItem.mk "lecture" 3 "beta" (some "2024") 7)
      (by decide) (by decide) (by decide) (by decide)⟩

/-- C6: a DOM row matching neither the cursor item nor any item in the
lookahead window is dropped with the cursor unchanged, so the next DOM row
is compared at the same cursor; in particular for DOM `[A, X, B]` and API
`[A, B]` with `X` matching nothing, the matcher yields exactly
`[(A, A), (B, B)]` with no pair for `X`. -/
theorem matchDomToApi_lookahead_failure :
    (∀ (apiItems : List CurriculumItem) (d : DomItem) (ds : List DomItem) (i : Nat),
      i < apiItems.length →
      normalizeTitle d.title ≠ normalizeTitle ((apiItems.getD i default).title) →
      (∀ o, 1 ≤ o → o ≤ 10 → i + o < apiItems.length →
        normalizeTitle d.title ≠ normalizeTitle ((apiItems.getD (i + o) default).title)) →
      matchAux apiItems (d :: ds) i = matchAux apiItems ds i) ∧
    (∀ (e₁ ex e₂ : Nat) (ta tx tb : String) (A B : CurriculumItem),
      normalizeTitle ta = normalizeTitle A.title →
      normalizeTitle tb = normalizeTitle B.title →
      normalizeTitle tx ≠ normalizeTitle A.title →
      normalizeTitle tx ≠ normalizeTitle B.title →
      matchDomToApi [DomItem.mk e₁ ta, DomItem.mk ex tx, DomItem.mk e₂ tb] [A, B] =
        [MatchedItem.mk e₁ A, MatchedItem.mk e₂ B] ∧
      (ex ≠ e₁ → ex ≠ e₂ →
        ∀ m ∈ matchDomToApi [DomItem.mk e₁ ta, DomItem.mk ex tx, DomItem.mk e₂ tb] [A, B],
          m.element ≠ ex)) := by
  constructor
  · intro apiItems d ds i hi hne hno
    have hla : lookahead apiItems d.title i = none := by
      refine lookaheadGo_eq_none apiItems d.title i 10 1 (fun o ho1 ho2 hc => ?_)
      exact hno o ho1 (by omega) hc.1 hc.2
    exact matchAux_cons_miss apiItems d ds i hi hne hla
  · intro e₁ ex e₂ ta tx tb A B hA hB hxA hxB
    have h0 : (0 : Nat) < ([A, B]).length := by simp
    have hhit : normalizeTitle (DomItem.mk e₁ ta).title =
        normalizeTitle ((([A, B]).getD 0 default).title) := hA
    have h1 : (1 : Nat) < ([A, B]).length := by simp
    have hnex : ¬ normalizeTitle (DomItem.mk ex tx).title =
        normalizeTitle ((([A, B]).getD 1 default).title) := hxB
    have hlax : lookahead [A, B] (DomItem.mk ex tx).title 1 = none := by
      refine lookaheadGo_eq_none [A, B] (DomItem.mk ex tx).title 1 10 1
        (fun o ho1 ho2 hc => ?_)
      have : (1 : Nat) + o < 2 := by simpa using hc.1
      omega
    have hhitb : normalizeTitle (DomItem.mk e₂ tb).title =
        normalizeTitle ((([A, B]).getD 1 default).title) := hB
    have hmain : matchAux [A, B] [DomItem.mk e₁ ta, DomItem.mk ex tx, DomItem.mk e₂ tb] 0 =
        [⟨DomItem.mk e₁ ta, A, 0⟩, ⟨DomItem.mk e₂ tb, B, 1⟩] := by
      rw [matchAux_cons_hit [A, B] (DomItem.mk e₁ ta) [DomItem.mk ex tx, DomItem.mk e₂ tb] 0
          h0 hhit,
        matchAux_cons_miss [A, B] (DomItem.mk ex tx) [DomItem.mk e₂ tb] 1 h1 hnex hlax,
        matchAux_cons_hit [A, B] (DomItem.mk e₂ tb) [] 1 h1 hhitb,
        matchAux_nil]
      rfl
    have hmatched : matchDomToApi [DomItem.mk e₁ ta, DomItem.mk ex tx, DomItem.mk e₂ tb]
        [A, B] = [MatchedItem.mk e₁ A, MatchedItem.mk e₂ B] := by
      rw [matchDomToApi, hmain]
      rfl
    refine ⟨hmatched, fun hne1 hne2 m hm => ?_⟩
    rw [hmatched] at hm
    rcases List.mem_cons.mp hm with hm | hm
    · subst hm; exact fun hc => hne1 hc.symm
    · rcases List.mem_cons.mp hm with hm | hm
      · subst hm; exact fun hc => hne2 hc.symm
      · simp at hm

/-- Witness for C6 applying both parts at concrete inputs. -/
theorem matchDomToApi_lookahead_failure_witness :
    (matchAux [CurriculumItem.mk "lecture" 1 "a" none 0] [DomItem.mk 5 "z"] 0 =
      matchAux [CurriculumItem.mk "lecture" 1 "a" none 0] [] 0) ∧
    (matchDomToApi [DomItem.mk 0 "a", DomItem.mk 1 "x", DomItem.mk 2 "b"]
        [CurriculumItem.mk "lecture" 1 "a" none 9, CurriculumItem.mk "lecture" 2 "b" none 8] =
      [MatchedItem.mk 0 (CurriculumItem.mk "lecture" 1 "a" none 9),
       MatchedItem.mk 2 (CurriculumItem.mk "lecture" 2 "b" none 8)]) :=
  ⟨matchDomToApi_lookahead_failure.1 [CurriculumItem.mk "lecture" 1 "a" none 0]
      (DomItem.mk 5 "z") [] 0 (by decide) (by decide) (by decide),
    (matchDomToApi_lookahead_failure.2 0 1 2 "a" "x" "b"
      (CurriculumItem.mk "lecture" 1 "a" none 9) (CurriculumItem.mk "lecture" 2 "b" none 8)
      (by decide) (by decide) (by decide) (by decide)).1⟩

/-- C4: running the inject pass a second time on an unchanged DOM
snapshot and API item list changes nothing (in particular it attaches no
additional annotation), a row that was actually injected carries exactly
one annotation after both passes, and the injection marker, once true, is
never unset and makes every later injection on that element skip. -/
theorem injectDates_idempotent
    (σ : Nat → Elem) (domItems : List DomItem) (allCurriculumItems : List CurriculumItem)
    (hnd : ((matchDomToApi domItems (getContentItems allCurriculumItems)).map
      (fun m => m.element)).Nodup) :
    injectDates (injectDates σ domItems allCurriculumItems) domItems allCurriculumItems =
      injectDates σ domItems allCurriculumItems ∧
    (∀ m ∈ matchDomToApi domItems (getContentItems allCurriculumItems),
      (σ m.element).wxtDateInjected = false → createdPresent m.apiItem.created = true →
      (σ m.element).hasRow = true → (σ m.element).annotations = 0 →
      (injectDates (injectDates σ domItems allCurriculumItems) domItems allCurriculumItems
        m.element).annotations = 1) ∧
    (∀ (e : Elem) (it : CurriculumItem), e.wxtDateInjected = true →
      injectDateIntoElement e it = e) ∧
    (∀ (e : Elem) (it : CurriculumItem), e.wxtDateInjected = true →
      (injectDateIntoElement e it).wxtDateInjected = true) := by
  have hpass : injectDates (injectDates σ domItems allCurriculumItems) domItems
      allCurriculumItems = injectDates σ domItems allCurriculumItems :=
    runInjections_idem _ _ hnd
  refine ⟨hpass, fun m hm h1 h2 h3 h4 => ?_, injectDateIntoElement_marked,
    injectDateIntoElement_marker_mono⟩
  rw [hpass]
  exact runInjections_ann_eq_one _ _ m hnd hm h1 h2 h3 h4

/-- Witness for C4: a one-row page with a chapter and a dated lecture. -/
theorem injectDates_idempotent_witness :
    ((matchDomToApi [DomItem.mk 0 "intro"]
        (getContentItems [CurriculumItem.mk "chapter" 9 "Chapter 1" none 20,
          CurriculumItem.mk "lecture" 1 "Intro" (some "2023-01-01") 10])).map
      (fun m => m.element)).Nodup ∧
    (injectDates (injectDates (fun _ => Elem.mk false true 0) [DomItem.mk 0 "intro"]
        [CurriculumItem.mk "chapter" 9 "Chapter 1" none 20,
         CurriculumItem.mk "lecture" 1 "Intro" (some "2023-01-01") 10])
        [DomItem.mk 0 "intro"]
        [CurriculumItem.mk "chapter" 9 "Chapter 1" none 20,
         CurriculumItem.mk "lecture" 1 "Intro" (some "2023-01-01") 10] =
      injectDates (fun _ => Elem.mk false true 0) [DomItem.mk 0 "intro"]
        [CurriculumItem.mk "chapter" 9 "Chapter 1" none 20,
         CurriculumItem.mk "lecture" 1 "Intro" (some "2023-01-01") 10] ∧
    (∀ m ∈ matchDomToApi [DomItem.mk 0 "intro"]
        (getContentItems [CurriculumItem.mk "chapter" 9 "Chapter 1" none 20,
          CurriculumItem.mk "lecture" 1 "Intro" (some "2023-01-01") 10]),
      ((fun _ => Elem.mk false true 0 : Nat → Elem) m.element).wxtDateInjected = false →
      createdPresent m.apiItem.created = true →
      ((fun _ => Elem.mk false true 0 : Nat → Elem) m.element).hasRow = true →
      ((fun _ => Elem.mk false true 0 : Nat → Elem) m.element).annotations = 0 →
      (injectDates (injectDates (fun _ => Elem.mk false true 0) [DomItem.mk 0 "intro"]
          [CurriculumItem.mk "chapter" 9 "Chapter 1" none 20,
           CurriculumItem.mk "lecture" 1 "Intro" (some "2023-01-01") 10])
          [DomItem.mk 0 "intro"]
          [CurriculumItem.mk "chapter" 9 "Chapter 1" none 20,
           CurriculumItem.mk "lecture" 1 "Intro" (some "2023-01-01") 10]
        m.element).annotations = 1) ∧
    (∀ (e : Elem) (it : CurriculumItem), e.wxtDateInjected = true →
      injectDateIntoElement e it = e) ∧
    (∀ (e : Elem) (it : CurriculumItem), e.wxtDateInjected = true →
      (injectDateIntoElement e it).wxtDateInjected = true)) :=
  ⟨by decide,
    injectDates_idempotent (fun _ => Elem.mk false true 0) [DomItem.mk 0 "intro"]
      [CurriculumItem.mk "chapter" 9 "Chapter 1" none 20,
       CurriculumItem.mk "lecture" 1 "Intro" (some "2023-01-01") 10]
      (by decide)⟩

end UdemyShowReleaseDate
